import Mathlib

/-!
Shallow embedding of the OMI NO2/SO2 extraction scripts
(`read_omi_no2_so2_at_a_location.py`, `read_and_map_omi_no2_so2.py`,
`allone.py`) and proofs checking the repository's specification against it.

Modelling conventions:
* Raw data values and attribute values are rationals (`ℚ`), the exact
  counterpart of the scripts' numeric values.
* The floating point "NaN" used as the "no data" marker is modelled by
  `Option ℚ`: `none` is NaN / no-data, `some v` a finite numeric value.
* A 2-D numpy array is a `List (List _)` in row-major order.
* A raised-and-uncaught Python exception is `Except.error`; a caught one
  that merely skips the current file is an ordinary return value.
-/

namespace OMI

/-- The "no data" (NaN) marker: `none`.  A finite value `v` is `some v`. -/
abbrev Val := Option ℚ

/-! ## CalibrationEngine (read_omi_no2_so2_at_a_location.py lines 78–81,
read_and_map_omi_no2_so2.py lines 90–98) -/

/-- Does the raw value `x` equal the sentinel `s` (when the sentinel is
present)?  Mirrors `if fill_value is not None: data_array[data_array ==
fill_value] = np.nan`: an absent sentinel matches nothing, and a NaN cell
never compares equal to a sentinel. -/
def matchesSentinel (s : Option ℚ) (x : ℚ) : Bool :=
  match s with
  | none => false
  | some v => x == v

/-- The masking step applied to one (possibly already masked) cell:
cells equal to the fill value `fv` or the missing value `mv` become
no-data; a no-data cell stays no-data (NaN == anything is false). -/
def maskVal (fv mv : Option ℚ) (x : Val) : Val :=
  match x with
  | none => none
  | some v => if matchesSentinel fv v || matchesSentinel mv v then none else some v

/-- The scale/offset step applied to one cell:
`data_array = scale_factor * (data_array - offset)`; NaN propagates. -/
def scaleVal (scale offset : ℚ) (x : Val) : Val :=
  x.map (fun v => scale * (v - offset))

/-- Calibration of a single raw cell, in the source's order: cast, mask,
then scale/offset. -/
def calibVal (fv mv : Option ℚ) (scale offset : ℚ) (x : ℚ) : Val :=
  scaleVal scale offset (maskVal fv mv (some x))

/-- The masking step over a whole (possibly already masked) 2-D array. -/
def maskArr (fv mv : Option ℚ) (a : List (List Val)) : List (List Val) :=
  a.map (List.map (maskVal fv mv))

/-- `calibrate(rawField, metadata)`: elementwise masking followed by the
elementwise linear transform, exactly as lines 78–81 of
read_omi_no2_so2_at_a_location.py (and lines 91–98 of
read_and_map_omi_no2_so2.py). -/
def calibrate (fv mv : Option ℚ) (scale offset : ℚ) (raw : List (List ℚ)) :
    List (List Val) :=
  raw.map (List.map (calibVal fv mv scale offset))

/-- The shape of a 2-D array: the list of its row lengths. -/
def shape (a : List (List α)) : List ℕ :=
  a.map List.length

/-- Element of a 2-D array at row `i`, column `j` (row-major), `none` when
out of range. -/
def elemAt (a : List (List α)) (i j : ℕ) : Option α :=
  a[i]?.bind (fun r => r[j]?)


/-! ## ProductResolver (read_omi_no2_so2_at_a_location.py lines 39–59,
allone.py lines 44–52) -/

/-- Is `n` a prefix of `hay`?  Character-by-character comparison. -/
def isPrefixTok : List Char → List Char → Bool
  | [], _ => true
  | _ :: _, [] => false
  | a :: as, b :: bs => a == b && isPrefixTok as bs

/-- Python's substring test `n in hay`. -/
def containsTok (n : List Char) : List Char → Bool
  | [] => n.isEmpty
  | c :: rest => isPrefixTok n (c :: rest) || containsTok n rest

/-- The token "NO2" of the file-name test at line 39. -/
def no2Tok : List Char := ['N', 'O', '2']

/-- The token "SO2" of the file-name test at line 46. -/
def so2Tok : List Char := ['S', 'O', '2']

/-- The two product schemas plus the not-a-product verdict
(`SchemaVariant` of the specification). -/
inductive ProductSchema
  | simpleOffset
  | rangedOffset
  | notAProduct
deriving DecidableEq

/-- The primary field name each schema reads (`SDS_NAME` at lines 43/50). -/
def primaryName : ProductSchema → List Char
  | .simpleOffset => ['C','o','l','u','m','n','A','m','o','u','n','t','N','O','2']
  | .rangedOffset => ['C','o','l','u','m','n','A','m','o','u','n','t','S','O','2','_','P','B','L']
  | .notAProduct => []

/-- Product resolution from the file name, exactly the
`if 'NO2' in FILE_NAME: ... elif 'SO2' in FILE_NAME: ... else ...`
chain of lines 39–59. -/
def resolve (name : List Char) : ProductSchema :=
  if containsTok no2Tok name then .simpleOffset
  else if containsTok so2Tok name then .rangedOffset
  else .notAProduct

/-! ## File model and per-file control flow of
read_omi_no2_so2_at_a_location.py.  Attribute and group access mirrors
h5py dictionary access: a missing key raises `KeyError`.  An exception
that no surrounding `try` catches is `Except.error` and aborts the whole
batch loop (there is no `try` around the body of the `for` loop). -/

/-- The one uncaught exception kind the model needs. -/
inductive PyErr
  | keyError
deriving DecidableEq

/-- Association-list lookup, the model of h5py group/attribute access. -/
def lookupKey (m : List (List Char × α)) (k : List Char) : Option α :=
  (m.find? (fun p => p.1 == k)).map Prod.snd

/-- Dictionary access `m[k]` raising `KeyError` when the key is absent. -/
def getStrict (m : List (List Char × α)) (k : List Char) : Except PyErr α :=
  match lookupKey m k with
  | some v => .ok v
  | none => .error .keyError

/-- A dataset of the Data Fields group: its numeric attributes and its raw
2-D array. -/
structure DataField where
  attrs : List (List Char × ℚ)
  raw : List (List ℚ)
deriving DecidableEq

/-- A source file: its name, its geolocation group (named 2-D arrays that
may contain NaN) and its data-fields group. -/
structure H5File where
  name : List Char
  geo : List (List Char × List (List Val))
  fields : List (List Char × DataField)
deriving DecidableEq

def scaleKey : List Char := ['S','c','a','l','e','F','a','c','t','o','r']

def fillKey : List Char := ['_','F','i','l','l','V','a','l','u','e']

def missingKey : List Char := ['M','i','s','s','i','n','g','V','a','l','u','e']

def offsetKey : List Char := ['O','f','f','s','e','t']

def latitudeKey : List Char := ['L','a','t','i','t','u','d','e']

def longitudeKey : List Char := ['L','o','n','g','i','t','u','d','e']

/-- Per-file result of read_omi_no2_so2_at_a_location.py when no uncaught
exception is raised. -/
inductive Outcome
  /-- Lines 56–59: unknown product, message printed, `continue`. -/
  | notAProduct
  /-- Lines 66–71: the caught `KeyError` branch, message printed,
  `continue`. -/
  | fieldNotFound
  /-- The file was fully processed: calibrated array plus the latitude and
  longitude arrays (no shape check is performed anywhere). -/
  | processed (calibrated : List (List Val)) (lat lon : List (List Val))
deriving DecidableEq

/-- The per-file body of the `for` loop of read_omi_no2_so2_at_a_location.py
(lines 39–81, the part the claims are about; the interactive prompts, the
`Units`/`ValidRange` attribute reads and the printing are elided as they do
not affect these claims).  Order of effects follows the source:
line 44/51 fetches `dataFields[SDS_NAME]` with no surrounding `try`;
lines 61–62 fetch `Latitude`/`Longitude`, also unprotected and with no
shape check; lines 66–71 re-fetch the field inside `try/except KeyError`;
lines 73–76 read `ScaleFactor`, `_FillValue`, `MissingValue`, `Offset`
strictly (`sds.attrs[...]`, no default); lines 78–81 calibrate. -/
def processAtLoc (f : H5File) : Except PyErr Outcome :=
  match resolve f.name with
  | .notAProduct => .ok .notAProduct
  | s => do
      let fld ← getStrict f.fields (primaryName s)
      let lat ← getStrict f.geo latitudeKey
      let lon ← getStrict f.geo longitudeKey
      match lookupKey f.fields (primaryName s) with
      | none => pure .fieldNotFound
      | some _ => do
          let scale ← getStrict fld.attrs scaleKey
          let fv ← getStrict fld.attrs fillKey
          let mv ← getStrict fld.attrs missingKey
          let off ← getStrict fld.attrs offsetKey
          pure (.processed (calibrate (some fv) (some mv) scale off fld.raw) lat lon)

/-- The batch loop over the files of `fileList.txt`: an uncaught exception
in one file's processing aborts the remainder of the batch. -/
def runBatchAtLoc : List H5File → Except PyErr (List Outcome)
  | [] => .ok []
  | f :: rest => do
      let o ← processAtLoc f
      let os ← runBatchAtLoc rest
      pure (o :: os)

/-- The calibration step of `extract_omi_data` in
read_and_map_omi_no2_so2.py (lines 81–98): sentinels fetched with
`attrs.get(..., None)`, scale and offset with defaults 1.0 and 0.0. -/
def extractCalibrate (fld : DataField) : List (List Val) :=
  calibrate (lookupKey fld.attrs fillKey) (lookupKey fld.attrs missingKey)
    ((lookupKey fld.attrs scaleKey).getD 1) ((lookupKey fld.attrs offsetKey).getD 0)
    fld.raw

/-! ## GeolocationIndex bounds (read_omi_no2_so2_at_a_location.py
lines 61–64): `np.min`/`np.max`, which propagate NaN. -/

/-- Lift a binary operation to NaN-propagating values: if either operand
is NaN the result is NaN, as in numpy's `min`/`max` reductions. -/
def nanAbsorb (f : ℚ → ℚ → ℚ) : Val → Val → Val
  | some a, some b => some (f a b)
  | _, _ => none

/-- A numpy reduction (`np.min` / `np.max`) of a flat array: the pairwise
fold over all elements; NaN anywhere makes the result NaN. -/
def npReduce (f : ℚ → ℚ → ℚ) : List Val → Val
  | [] => none
  | x :: rest => rest.foldl (nanAbsorb f) x

/-- `np.min` over a (flattened) array. -/
def npMin (l : List Val) : Val := npReduce min l

/-- `np.max` over a (flattened) array. -/
def npMax (l : List Val) : Val := npReduce max l

/-- Lines 63–64: `min_lat, max_lat = np.min(lat), np.max(lat)` and the same
for longitude. -/
def boundsAtLoc (lat lon : List (List Val)) : Val × Val × Val × Val :=
  (npMin lat.flatten, npMax lat.flatten, npMin lon.flatten, npMax lon.flatten)

/-- Lines 61–64 as the specification's `build`: fetch `Latitude` and
`Longitude` from the geolocation group and compute the bounds.  The source
performs no comparison of the two shapes (or of either with the data
shape). -/
def buildGeo (geo : List (List Char × List (List Val))) :
    Except PyErr (List (List Val) × List (List Val) × (Val × Val × Val × Val)) := do
  let lat ← getStrict geo latitudeKey
  let lon ← getStrict geo longitudeKey
  pure (lat, lon, boundsAtLoc lat lon)

/-- The finite (non-NaN) entries of a flat array. -/
def finiteVals (l : List Val) : List ℚ := l.filterMap id

/-- Minimum over the finite entries only (the specification's reading of
`bounds()`); `none` when no entry is finite. -/
def finiteMin (l : List Val) : Val :=
  match finiteVals l with
  | [] => none
  | a :: as => some (as.foldl min a)

/-- Maximum over the finite entries only. -/
def finiteMax (l : List Val) : Val :=
  match finiteVals l with
  | [] => none
  | a :: as => some (as.foldl max a)

/-! ## WindowStatistics (read_omi_no2_so2_at_a_location.py lines 124–158) -/

/-- `safe_slice(idx, max_idx, radius)` of lines 125–128:
`(max(idx - radius, 0), min(idx + radius + 1, max_idx))`. -/
def safe_slice (idx maxIdx radius : ℤ) : ℤ × ℤ :=
  (max (idx - radius) 0, min (idx + radius + 1) maxIdx)

/-- Python list slicing `l[s:e]` for the index ranges produced by
`safe_slice` (both bounds already clamped to `0 ≤ s`, `e ≤ len`). -/
def sliceList (l : List α) (s e : ℤ) : List α :=
  (l.drop s.toNat).take (e - s).toNat

/-- `shape[1]` of a 2-D array: the length of its first row. -/
def width (a : List (List α)) : ℕ :=
  match a with
  | [] => 0
  | r :: _ => r.length

/-- The clamped window `dataArray[x_start:x_end, y_start:y_end]` of
lines 130–133 / 145–148. -/
def window (a : List (List Val)) (row col radius : ℤ) : List (List Val) :=
  let rs := safe_slice row (a.length : ℤ) radius
  let cs := safe_slice col (width a : ℤ) radius
  (sliceList a rs.1 rs.2).map (fun r => sliceList r cs.1 cs.2)

/-- `np.count_nonzero(~np.isnan(w))`: the number of non-NaN entries. -/
def nanCount (l : List Val) : ℕ := (l.filter Option.isSome).length

/-- The sum numpy's nan-aggregates use: NaN entries contribute zero. -/
def nanSum (l : List Val) : ℚ := (l.map (fun x => x.getD 0)).sum

/-- `np.nanmean`: sum of the non-NaN entries over their number. -/
def nanmean (l : List Val) : ℚ := nanSum l / nanCount l

/-- `np.nanstd` squared (population variance, `ddof = 0`): mean of the
squared deviations of the non-NaN entries from their mean.  The square is
used so the value stays rational; the standard deviation is its square
root. -/
def nanstdSq (l : List Val) : ℚ :=
  (l.map (fun x => match x with | none => 0 | some v => (v - nanmean l) ^ 2)).sum /
    nanCount l

/-- The median of a list of rationals: middle element of the sorted list,
or the average of the two middle elements when the length is even. -/
def medianQ (l : List ℚ) : ℚ :=
  let s := l.insertionSort (· ≤ ·)
  if s.length % 2 = 1 then s.getD (s.length / 2) 0
  else (s.getD (s.length / 2 - 1) 0 + s.getD (s.length / 2) 0) / 2

/-- `np.nanmedian`: the median of the non-NaN entries. -/
def nanmedian (l : List Val) : ℚ := medianQ (finiteVals l)

/-- A window report: count of valid cells and the three aggregates
(standard deviation represented by its square). -/
structure WStats where
  count : ℕ
  mean : ℚ
  median : ℚ
  stdSq : ℚ
deriving DecidableEq

/-- Lines 130–143 (and 145–158 with radius 2): slice the clamped window,
count the non-NaN cells, report "no valid pixels" (`none`) when the count
is zero, and otherwise the nan-aggregates of the window. -/
def windowStats (a : List (List Val)) (row col radius : ℤ) : Option WStats :=
  let vals := (window a row col radius).flatten
  if nanCount vals = 0 then none
  else some ⟨nanCount vals, nanmean vals, nanmedian vals, nanstdSq vals⟩

/-! ## NearestPointLocator (read_omi_no2_so2_at_a_location.py
lines 105–117).  The floating-point trigonometry is embedded over the
real numbers; `d.argmin()` is `argminFirst` on the row-major flattened
distance array (numpy returns the first index attaining the minimum),
and `np.unravel_index(k, d.shape)` is `(k / W, k % W)`. -/

/-- First index of the minimum of a list — numpy's `argmin` tie-break:
among equal minima the smallest (row-major) flat index wins. -/
def argminFirst {α : Type} [LinearOrder α] : List α → ℕ
  | [] => 0
  | x :: rest =>
    match rest[argminFirst rest]? with
    | none => 0
    | some b => if b < x then argminFirst rest + 1 else 0

/-- `np.arctan2 y x`. -/
noncomputable def atan2 (y x : ℝ) : ℝ :=
  if 0 < x then Real.arctan (y / x)
  else if x < 0 then
    (if 0 ≤ y then Real.arctan (y / x) + Real.pi else Real.arctan (y / x) - Real.pi)
  else
    (if 0 < y then Real.pi / 2 else if y < 0 then -(Real.pi / 2) else 0)

/-- `np.radians`. -/
noncomputable def radians (x : ℝ) : ℝ := x * Real.pi / 180

/-- The haversine great-circle distance of lines 106–114, on a sphere of
radius `R = 6371000` metres, from the query point `(qlat, qlon)` to the
grid point `(lat, lon)` (all in degrees):
`a = sin²(Δlat/2) + cos(lat1)·cos(lat2)·sin²(Δlon/2)`,
`d = R · 2·atan2(√a, √(1−a))`. -/
noncomputable def haversine (qlat qlon lat lon : ℝ) : ℝ :=
  let lat1 := radians qlat
  let lat2 := radians lat
  let dlat := radians (lat - qlat)
  let dlon := radians (lon - qlon)
  let a := Real.sin (dlat / 2) ^ 2 +
    Real.cos lat1 * Real.cos lat2 * Real.sin (dlon / 2) ^ 2
  6371000 * (2 * atan2 (Real.sqrt a) (Real.sqrt (1 - a)))

/-- The elementwise distance array `d` of lines 106–114. -/
noncomputable def distGrid (lat lon : List (List ℝ)) (qlat qlon : ℝ) :
    List (List ℝ) :=
  List.zipWith (fun rla rlo => List.zipWith (haversine qlat qlon) rla rlo) lat lon

/-- Line 116: `x, y = np.unravel_index(d.argmin(), d.shape)`. -/
noncomputable def locate (lat lon : List (List ℝ)) (qlat qlon : ℝ) : ℕ × ℕ :=
  (argminFirst (distGrid lat lon qlat qlon).flatten /
      width (distGrid lat lon qlat qlon),
   argminFirst (distGrid lat lon qlat qlon).flatten %
      width (distGrid lat lon qlat qlon))

/-- The haversine distance from the query point to the grid cell `(i, j)`. -/
noncomputable def dAt (lat lon : List (List ℝ)) (qlat qlon : ℝ) (i j : ℕ) : ℝ :=
  haversine qlat qlon ((lat.getD i []).getD j 0) ((lon.getD i []).getD j 0)


/-! ## Theorems -/

theorem elemAt_map (f : α → β) (a : List (List α)) (i j : ℕ) :
    elemAt (a.map (List.map f)) i j = (elemAt a i j).map f := by
  unfold elemAt
  rw [List.getElem?_map]
  cases a[i]? with
  | none => rfl
  | some r =>
    simp [List.getElem?_map]

/-- One-cell characterisation of calibration: the sentinel test is decided
on the raw value; non-sentinel values are scaled. -/
theorem calibVal_eq (fv mv : Option ℚ) (scale offset : ℚ) (x : ℚ) :
    calibVal fv mv scale offset x =
      if matchesSentinel fv x || matchesSentinel mv x then none
      else some (scale * (x - offset)) := by
  unfold calibVal maskVal scaleVal
  by_cases hs : matchesSentinel fv x || matchesSentinel mv x
  · simp [hs]
  · simp [hs]

/-- C1: every raw cell equal to the raw fill or missing value calibrates to
the no-data marker, every other raw cell to `scale * (raw − offset)`; the
sentinel comparison is decided on the raw value, before the scale/offset
transform (so a non-sentinel raw value is scaled even when its scaled image
happens to coincide with a sentinel). -/
theorem calibrate_masks_raw_before_scaling (fv mv : Option ℚ) (scale offset : ℚ)
    (raw : List (List ℚ)) (i j : ℕ) :
    elemAt (calibrate fv mv scale offset raw) i j =
      (elemAt raw i j).map (fun x =>
        if matchesSentinel fv x || matchesSentinel mv x then none
        else some (scale * (x - offset))) := by
  unfold calibrate
  rw [elemAt_map]
  have hfun : calibVal fv mv scale offset = fun x =>
      if matchesSentinel fv x || matchesSentinel mv x then none
      else some (scale * (x - offset)) :=
    funext fun x => calibVal_eq fv mv scale offset x
  rw [hfun]

/-- C5: calibration is shape-preserving, its masking step is idempotent,
and it is deterministic (a pure function of the raw array and the
metadata: equal inputs give bit-identical outputs). -/
theorem calibrate_shape_and_mask_idempotent (fv mv : Option ℚ) (scale offset : ℚ)
    (raw raw' : List (List ℚ)) (a : List (List Val)) :
    shape (calibrate fv mv scale offset raw) = shape raw ∧
    maskArr fv mv (maskArr fv mv a) = maskArr fv mv a ∧
    (raw = raw' →
      calibrate fv mv scale offset raw = calibrate fv mv scale offset raw') := by
  refine ⟨?_, ?_, fun h => by rw [h]⟩
  · unfold calibrate shape
    rw [List.map_map]
    apply List.map_congr_left
    intro r _
    simp
  · unfold maskArr
    rw [List.map_map]
    apply List.map_congr_left
    intro r _
    simp only [Function.comp_apply, List.map_map]
    apply List.map_congr_left
    intro x _
    simp only [Function.comp_apply]
    cases x with
    | none => rfl
    | some v =>
      unfold maskVal
      by_cases hs : matchesSentinel fv v || matchesSentinel mv v
      · simp [hs]
      · simp [hs]


/-- Witness for the C5 theorem at concrete inputs. -/
theorem calibrate_shape_and_mask_idempotent_witness :
    shape (calibrate (some 5) none 2 1 [[1, 5], [3, 4]]) = shape [[(1 : ℚ), 5], [3, 4]] ∧
    maskArr (some 5) none (maskArr (some 5) none [[some 5, none, some 2]]) =
      maskArr (some 5) none [[some 5, none, some 2]] ∧
    calibrate (some 5) none 2 1 [[1, 5], [3, 4]] =
      calibrate (some 5) none 2 1 [[1, 5], [3, 4]] :=
  ⟨(calibrate_shape_and_mask_idempotent (some 5) none 2 1 [[1, 5], [3, 4]]
      [[1, 5], [3, 4]] [[some 5, none, some 2]]).1,
   (calibrate_shape_and_mask_idempotent (some 5) none 2 1 [[1, 5], [3, 4]]
      [[1, 5], [3, 4]] [[some 5, none, some 2]]).2.1,
   (calibrate_shape_and_mask_idempotent (some 5) none 2 1 [[1, 5], [3, 4]]
      [[1, 5], [3, 4]] [[some 5, none, some 2]]).2.2 rfl⟩

/-- C6 counterexample: a file name containing both "NO2" and "SO2" is
resolved to the NO2 (simple-offset) schema by the `if/elif` chain, not
reported as not-a-product as the claim states. -/
theorem resolve_both_tokens_is_simpleOffset :
    containsTok no2Tok ['N', 'O', '2', 'S', 'O', '2'] = true ∧
    containsTok so2Tok ['N', 'O', '2', 'S', 'O', '2'] = true ∧
    resolve ['N', 'O', '2', 'S', 'O', '2'] = ProductSchema.simpleOffset ∧
    resolve ['N', 'O', '2', 'S', 'O', '2'] ≠ ProductSchema.notAProduct := by
  decide

/-- C6 amended: a name containing "NO2" (even one also containing "SO2")
selects the simple-offset schema; a name containing "SO2" but not "NO2"
selects the ranged-offset schema; a name containing neither is reported
not-a-product, and such a file is skipped while the batch continues. -/
theorem resolve_decision_rule (name : List Char) :
    (containsTok no2Tok name = true → resolve name = ProductSchema.simpleOffset) ∧
    (containsTok no2Tok name = false → containsTok so2Tok name = true →
      resolve name = ProductSchema.rangedOffset) ∧
    (containsTok no2Tok name = false → containsTok so2Tok name = false →
      resolve name = ProductSchema.notAProduct) ∧
    (∀ f rest, H5File.name f = name → resolve name = ProductSchema.notAProduct →
      runBatchAtLoc (f :: rest) =
        (runBatchAtLoc rest).map (fun os => Outcome.notAProduct :: os)) := by
  refine ⟨?_, ?_, ?_, ?_⟩
  · intro h
    simp [resolve, h]
  · intro h1 h2
    simp [resolve, h1, h2]
  · intro h1 h2
    simp [resolve, h1, h2]
  · intro f rest hf hres
    show (do
      let o ← processAtLoc f
      let os ← runBatchAtLoc rest
      pure (o :: os)) = _
    rw [show processAtLoc f = .ok .notAProduct by rw [processAtLoc, hf, hres]]
    cases runBatchAtLoc rest with
    | error e => rfl
    | ok os => rfl

/-- Witness for the C6 amended theorem. -/
theorem resolve_decision_rule_witness :
    containsTok no2Tok ['N', 'O', '2'] = true ∧
    resolve ['N', 'O', '2'] = ProductSchema.simpleOffset :=
  ⟨by decide, (resolve_decision_rule ['N', 'O', '2']).1 (by decide)⟩

/-- C7: in read_omi_no2_so2_at_a_location.py a file whose data-fields
group lacks the primary field raises an uncaught `KeyError` at line 44/51
(the guarded re-fetch of lines 66–71 is never reached), so the whole batch
aborts and the following file — here one that on its own processes to the
not-a-product outcome — is never handled.  This evaluates the model at the
claim's failing input. -/
theorem missing_field_aborts_batch :
    runBatchAtLoc [⟨['N', 'O', '2'], [], []⟩, ⟨['X'], [], []⟩] =
      Except.error PyErr.keyError ∧
    processAtLoc ⟨['X'], [], []⟩ = Except.ok Outcome.notAProduct :=
  ⟨rfl, rfl⟩

/-- C8 counterexample: in read_omi_no2_so2_at_a_location.py the
`ScaleFactor` attribute is read with `sds.attrs['ScaleFactor']` (line 73),
so a field lacking it makes processing of the file raise `KeyError`
rather than default to 1.0. -/
theorem missing_scale_attr_is_error :
    processAtLoc
      ⟨['N', 'O', '2'],
        [(latitudeKey, [[some 0]]), (longitudeKey, [[some 0]])],
        [(primaryName ProductSchema.simpleOffset,
          ⟨[(fillKey, -1), (missingKey, -2), (offsetKey, 0)], [[1]]⟩)]⟩ =
      Except.error PyErr.keyError :=
  rfl

/-- C8 amended: `extract_omi_data` of read_and_map_omi_no2_so2.py treats an
absent `ScaleFactor` or `Offset` attribute as non-erroneous, defaulting
each missing coefficient independently (scale factor to 1.0, offset to
0.0) while using whichever attribute is present; the calibration is then
the identity linear transform in the missing coefficient
(`x - offset` when only the scale factor is absent, `scale * x` when only
the offset is absent, and both defaults compose when both are absent).
read_omi_no2_so2_at_a_location.py instead reads both attributes
unconditionally, so there an absent attribute is an error. -/
theorem extractCalibrate_defaults (fld : DataField) (i j : ℕ) :
    (lookupKey fld.attrs scaleKey = none →
      extractCalibrate fld =
        calibrate (lookupKey fld.attrs fillKey) (lookupKey fld.attrs missingKey)
          1 ((lookupKey fld.attrs offsetKey).getD 0) fld.raw ∧
      elemAt (extractCalibrate fld) i j = (elemAt fld.raw i j).map (fun x =>
        if matchesSentinel (lookupKey fld.attrs fillKey) x ||
            matchesSentinel (lookupKey fld.attrs missingKey) x then none
        else some (x - (lookupKey fld.attrs offsetKey).getD 0))) ∧
    (lookupKey fld.attrs offsetKey = none →
      extractCalibrate fld =
        calibrate (lookupKey fld.attrs fillKey) (lookupKey fld.attrs missingKey)
          ((lookupKey fld.attrs scaleKey).getD 1) 0 fld.raw ∧
      elemAt (extractCalibrate fld) i j = (elemAt fld.raw i j).map (fun x =>
        if matchesSentinel (lookupKey fld.attrs fillKey) x ||
            matchesSentinel (lookupKey fld.attrs missingKey) x then none
        else some ((lookupKey fld.attrs scaleKey).getD 1 * x))) := by
  constructor
  · intro hs
    have h1 : extractCalibrate fld =
        calibrate (lookupKey fld.attrs fillKey) (lookupKey fld.attrs missingKey)
          1 ((lookupKey fld.attrs offsetKey).getD 0) fld.raw := by
      simp only [extractCalibrate, hs, Option.getD_none]
    refine ⟨h1, ?_⟩
    rw [h1]
    unfold calibrate
    rw [elemAt_map]
    have hfun : calibVal (lookupKey fld.attrs fillKey) (lookupKey fld.attrs missingKey)
        1 ((lookupKey fld.attrs offsetKey).getD 0) = fun x =>
          if matchesSentinel (lookupKey fld.attrs fillKey) x ||
              matchesSentinel (lookupKey fld.attrs missingKey) x then none
          else some (x - (lookupKey fld.attrs offsetKey).getD 0) := by
      funext x
      rw [calibVal_eq, one_mul]
    rw [hfun]
  · intro ho
    have h1 : extractCalibrate fld =
        calibrate (lookupKey fld.attrs fillKey) (lookupKey fld.attrs missingKey)
          ((lookupKey fld.attrs scaleKey).getD 1) 0 fld.raw := by
      simp only [extractCalibrate, ho, Option.getD_none]
    refine ⟨h1, ?_⟩
    rw [h1]
    unfold calibrate
    rw [elemAt_map]
    have hfun : calibVal (lookupKey fld.attrs fillKey) (lookupKey fld.attrs missingKey)
        ((lookupKey fld.attrs scaleKey).getD 1) 0 = fun x =>
          if matchesSentinel (lookupKey fld.attrs fillKey) x ||
              matchesSentinel (lookupKey fld.attrs missingKey) x then none
          else some ((lookupKey fld.attrs scaleKey).getD 1 * x) := by
      funext x
      rw [calibVal_eq, sub_zero]
    rw [hfun]

/-- Witness for the C8 amended theorem: one field missing only the scale
factor (its offset is present), one missing only the offset (its scale
factor is present). -/
theorem extractCalibrate_defaults_witness :
    (extractCalibrate ⟨[(fillKey, 5), (offsetKey, 2)], [[5, 7]]⟩ =
      calibrate (lookupKey [(fillKey, (5 : ℚ)), (offsetKey, 2)] fillKey)
        (lookupKey [(fillKey, (5 : ℚ)), (offsetKey, 2)] missingKey)
        1 ((lookupKey [(fillKey, (5 : ℚ)), (offsetKey, 2)] offsetKey).getD 0)
        [[5, 7]] ∧
     elemAt (extractCalibrate ⟨[(fillKey, 5), (offsetKey, 2)], [[5, 7]]⟩) 0 1 =
      (elemAt [[(5 : ℚ), 7]] 0 1).map (fun x =>
        if matchesSentinel
              (lookupKey [(fillKey, (5 : ℚ)), (offsetKey, 2)] fillKey) x ||
            matchesSentinel
              (lookupKey [(fillKey, (5 : ℚ)), (offsetKey, 2)] missingKey) x
        then none
        else some
          (x - (lookupKey [(fillKey, (5 : ℚ)), (offsetKey, 2)] offsetKey).getD 0))) ∧
    (extractCalibrate ⟨[(fillKey, 5), (scaleKey, 3)], [[5, 7]]⟩ =
      calibrate (lookupKey [(fillKey, (5 : ℚ)), (scaleKey, 3)] fillKey)
        (lookupKey [(fillKey, (5 : ℚ)), (scaleKey, 3)] missingKey)
        ((lookupKey [(fillKey, (5 : ℚ)), (scaleKey, 3)] scaleKey).getD 1) 0
        [[5, 7]] ∧
     elemAt (extractCalibrate ⟨[(fillKey, 5), (scaleKey, 3)], [[5, 7]]⟩) 0 1 =
      (elemAt [[(5 : ℚ), 7]] 0 1).map (fun x =>
        if matchesSentinel
              (lookupKey [(fillKey, (5 : ℚ)), (scaleKey, 3)] fillKey) x ||
            matchesSentinel
              (lookupKey [(fillKey, (5 : ℚ)), (scaleKey, 3)] missingKey) x
        then none
        else some
          ((lookupKey [(fillKey, (5 : ℚ)), (scaleKey, 3)] scaleKey).getD 1 * x))) :=
  ⟨(extractCalibrate_defaults ⟨[(fillKey, 5), (offsetKey, 2)], [[5, 7]]⟩ 0 1).1
      (by decide),
   (extractCalibrate_defaults ⟨[(fillKey, 5), (scaleKey, 3)], [[5, 7]]⟩ 0 1).2
      (by decide)⟩

/-- C9 counterexample: a file whose latitude, longitude and data arrays
all have different shapes is processed successfully — no shape-mismatch
condition exists anywhere in the source. -/
theorem mismatched_shapes_accepted :
    shape [[some (1 : ℚ), some 2]] ≠ shape [[some (3 : ℚ)]] ∧
    shape [[some (1 : ℚ), some 2]] ≠ shape [[(1 : ℚ)], [2], [3]] ∧
    processAtLoc
      ⟨['N', 'O', '2'],
        [(latitudeKey, [[some 1, some 2]]), (longitudeKey, [[some 3]])],
        [(primaryName ProductSchema.simpleOffset,
          ⟨[(scaleKey, 1), (fillKey, -1), (missingKey, -2), (offsetKey, 0)],
            [[1], [2], [3]]⟩)]⟩ =
      Except.ok (Outcome.processed (calibrate (some (-1)) (some (-2)) 1 0 [[1], [2], [3]])
        [[some 1, some 2]] [[some 3]]) := by
  refine ⟨by decide, by decide, ?_⟩
  rfl

/-- C9 amended: the geolocation step of lines 61–64 succeeds whenever the
`Latitude` and `Longitude` fields are present, with no comparison of their
shapes (or of either with the data shape): shape agreement is an
unchecked assumption, not a detected failure. -/
theorem buildGeo_ignores_shapes (geo : List (List Char × List (List Val)))
    (lat lon : List (List Val))
    (hlat : lookupKey geo latitudeKey = some lat)
    (hlon : lookupKey geo longitudeKey = some lon) :
    buildGeo geo = Except.ok (lat, lon, boundsAtLoc lat lon) := by
  rw [buildGeo]
  rw [show getStrict geo latitudeKey = .ok lat by rw [getStrict, hlat]]
  rw [show getStrict geo longitudeKey = .ok lon by rw [getStrict, hlon]]
  rfl

/-- Witness for the C9 amended theorem, with arrays of unequal shapes. -/
theorem buildGeo_ignores_shapes_witness :
    buildGeo [(latitudeKey, [[some 1, some 2]]), (longitudeKey, [[some 3]])] =
      Except.ok ([[some 1, some 2]], [[some 3]],
        boundsAtLoc [[some 1, some 2]] [[some 3]]) :=
  buildGeo_ignores_shapes _ [[some 1, some 2]] [[some 3]] (by decide) (by decide)

theorem foldl_nanAbsorb_none (f : ℚ → ℚ → ℚ) (l : List Val) :
    l.foldl (nanAbsorb f) none = none := by
  induction l with
  | nil => rfl
  | cons x rest ih =>
    have hstep : nanAbsorb f none x = none := by cases x <;> rfl
    simp only [List.foldl_cons, hstep, ih]

theorem foldl_nanAbsorb_of_mem_none (f : ℚ → ℚ → ℚ) (l : List Val) (acc : Val)
    (h : none ∈ l) : l.foldl (nanAbsorb f) acc = none := by
  induction l generalizing acc with
  | nil => cases h
  | cons x rest ih =>
    rcases List.mem_cons.mp h with hx | hr
    · have hstep : nanAbsorb f acc x = none := by
        rw [← hx]
        cases acc <;> rfl
      simp only [List.foldl_cons, hstep, foldl_nanAbsorb_none]
    · exact ih (nanAbsorb f acc x) hr

theorem foldl_nanAbsorb_all_some (f : ℚ → ℚ → ℚ) (l : List Val) (a : ℚ)
    (h : ∀ x ∈ l, x.isSome) :
    l.foldl (nanAbsorb f) (some a) = some ((finiteVals l).foldl f a) := by
  induction l generalizing a with
  | nil => rfl
  | cons x rest ih =>
    obtain ⟨b, rfl⟩ := Option.isSome_iff_exists.mp (h x (List.mem_cons_self x rest))
    have hrest : ∀ y ∈ rest, y.isSome := fun y hy => h y (List.mem_cons_of_mem _ hy)
    simp only [List.foldl_cons, nanAbsorb, finiteVals, List.filterMap_cons]
    exact ih (f a b) hrest

theorem npReduce_of_mem_none (f : ℚ → ℚ → ℚ) (l : List Val) (h : none ∈ l) :
    npReduce f l = none := by
  cases l with
  | nil => rfl
  | cons x rest =>
    show rest.foldl (nanAbsorb f) x = none
    rcases List.mem_cons.mp h with hx | hr
    · rw [← hx]
      exact foldl_nanAbsorb_none f rest
    · exact foldl_nanAbsorb_of_mem_none f rest x hr

theorem npMin_all_some (l : List Val) (h : ∀ x ∈ l, x.isSome) :
    npMin l = finiteMin l := by
  cases l with
  | nil => rfl
  | cons x rest =>
    obtain ⟨a, rfl⟩ := Option.isSome_iff_exists.mp (h x (List.mem_cons_self x rest))
    have hrest : ∀ y ∈ rest, y.isSome := fun y hy => h y (List.mem_cons_of_mem _ hy)
    show rest.foldl (nanAbsorb min) (some a) = finiteMin (some a :: rest)
    rw [foldl_nanAbsorb_all_some min rest a hrest]
    simp [finiteMin, finiteVals, List.filterMap_cons]

theorem npMax_all_some (l : List Val) (h : ∀ x ∈ l, x.isSome) :
    npMax l = finiteMax l := by
  cases l with
  | nil => rfl
  | cons x rest =>
    obtain ⟨a, rfl⟩ := Option.isSome_iff_exists.mp (h x (List.mem_cons_self x rest))
    have hrest : ∀ y ∈ rest, y.isSome := fun y hy => h y (List.mem_cons_of_mem _ hy)
    show rest.foldl (nanAbsorb max) (some a) = finiteMax (some a :: rest)
    rw [foldl_nanAbsorb_all_some max rest a hrest]
    simp [finiteMax, finiteVals, List.filterMap_cons]

/-- C10 counterexample: the bounds of lines 63–64 use `np.min`/`np.max`,
which propagate NaN: a latitude grid with one finite and one NaN entry
yields a NaN (not finite) minimum latitude, although the minimum over the
finite entries alone exists. -/
theorem bounds_nan_not_ignored :
    (boundsAtLoc [[some 1, none]] [[some 0]]).1 = none ∧
    finiteMin ([[some (1 : ℚ), none]].flatten) = some 1 ∧
    (boundsAtLoc [[some 1, none]] [[some 0]]).2.2.1 = some 0 :=
  ⟨rfl, rfl, rfl⟩

/-- C10 amended: the bounds are plain `np.min`/`np.max` reductions, which
propagate NaN instead of ignoring it: whenever any grid entry is NaN the
corresponding bound is NaN, and only when every entry is finite do the
bounds equal the extrema over the finite entries. -/
theorem bounds_eq_finite_extrema (lat lon : List (List Val))
    (hlat : ∀ x ∈ lat.flatten, x.isSome) (hlon : ∀ x ∈ lon.flatten, x.isSome) :
    boundsAtLoc lat lon =
      (finiteMin lat.flatten, finiteMax lat.flatten,
        finiteMin lon.flatten, finiteMax lon.flatten) ∧
    (∀ l : List Val, none ∈ l → npMin l = none ∧ npMax l = none) := by
  constructor
  · unfold boundsAtLoc
    rw [npMin_all_some lat.flatten hlat, npMax_all_some lat.flatten hlat,
      npMin_all_some lon.flatten hlon, npMax_all_some lon.flatten hlon]
  · intro l hl
    exact ⟨npReduce_of_mem_none min l hl, npReduce_of_mem_none max l hl⟩

/-- Witness for the C10 amended theorem. -/
theorem bounds_eq_finite_extrema_witness :
    boundsAtLoc [[some 1, some 2]] [[some 3]] =
      (finiteMin [[some (1 : ℚ), some 2]].flatten,
        finiteMax [[some (1 : ℚ), some 2]].flatten,
        finiteMin [[some (3 : ℚ)]].flatten, finiteMax [[some (3 : ℚ)]].flatten) :=
  (bounds_eq_finite_extrema [[some 1, some 2]] [[some 3]]
    (by decide) (by decide)).1

theorem nanCount_eq_length_finiteVals (l : List Val) :
    nanCount l = (finiteVals l).length := by
  induction l with
  | nil => rfl
  | cons x rest ih =>
    unfold nanCount finiteVals
    unfold nanCount finiteVals at ih
    cases x <;> simp [List.filter_cons, List.filterMap_cons, ih]

theorem nanSum_eq_sum_finiteVals (l : List Val) :
    nanSum l = (finiteVals l).sum := by
  induction l with
  | nil => rfl
  | cons x rest ih =>
    unfold nanSum finiteVals
    unfold nanSum finiteVals at ih
    cases x <;> simp [List.filterMap_cons, ih]

theorem nanSq_sum_eq_finiteVals (l : List Val) (m : ℚ) :
    (l.map (fun x => match x with | none => 0 | some v => (v - m) ^ 2)).sum =
      ((finiteVals l).map (fun v => (v - m) ^ 2)).sum := by
  induction l with
  | nil => rfl
  | cons x rest ih =>
    unfold finiteVals
    unfold finiteVals at ih
    cases x <;> simp [List.filterMap_cons, ih]

/-- C4: `windowStats` reports `none` ("no valid pixels", not an error)
exactly when the clamped window contains no finite cell, and otherwise its
count, mean, median and (squared) population standard deviation are those
of the finite (non-no-data) cells of the window alone — no-data cells are
excluded from all three aggregates. -/
theorem windowStats_aggregates_over_valid_cells (a : List (List Val))
    (row col radius : ℤ) :
    windowStats a row col radius =
      (if finiteVals ((window a row col radius).flatten) = [] then none
       else some
        ⟨(finiteVals ((window a row col radius).flatten)).length,
         (finiteVals ((window a row col radius).flatten)).sum /
           (finiteVals ((window a row col radius).flatten)).length,
         medianQ (finiteVals ((window a row col radius).flatten)),
         ((finiteVals ((window a row col radius).flatten)).map (fun v =>
             (v - (finiteVals ((window a row col radius).flatten)).sum /
               (finiteVals ((window a row col radius).flatten)).length) ^ 2)).sum /
           (finiteVals ((window a row col radius).flatten)).length⟩) := by
  unfold windowStats
  set vals := (window a row col radius).flatten with hv
  by_cases h : finiteVals vals = []
  · have hc : nanCount vals = 0 := by
      rw [nanCount_eq_length_finiteVals, h]
      rfl
    simp [hc, h]
  · have hc : nanCount vals = (finiteVals vals).length := by
      rw [nanCount_eq_length_finiteVals]
    have hc0 : ¬ nanCount vals = 0 := by
      rw [hc]
      simpa [List.length_eq_zero] using h
    have hmean : nanmean vals = (finiteVals vals).sum / ((finiteVals vals).length : ℚ) := by
      unfold nanmean
      rw [nanSum_eq_sum_finiteVals, hc]
    have hmed : nanmedian vals = medianQ (finiteVals vals) := rfl
    have hstd : nanstdSq vals =
        ((finiteVals vals).map (fun v =>
          (v - (finiteVals vals).sum / ((finiteVals vals).length : ℚ)) ^ 2)).sum /
          ((finiteVals vals).length : ℚ) := by
      unfold nanstdSq
      rw [nanSq_sum_eq_finiteVals vals (nanmean vals), hc, hmean]
    simp only [hc0, if_false, h, hc, hmean, hmed, hstd]
    rw [if_neg (fun hlen => h (List.length_eq_zero.mp hlen))]

theorem mem_sliceList {α : Type} {l : List α} {s e : ℤ} {x : α}
    (hx : x ∈ sliceList l s e) :
    ∃ k : ℕ, s.toNat ≤ k ∧ k < s.toNat + (e - s).toNat ∧ l[k]? = some x := by
  obtain ⟨m, hm⟩ := List.mem_iff_getElem?.mp hx
  rw [sliceList, List.getElem?_take] at hm
  by_cases hmt : m < (e - s).toNat
  · rw [if_pos hmt, List.getElem?_drop] at hm
    exact ⟨s.toNat + m, Nat.le_add_right _ _, by omega, hm⟩
  · rw [if_neg hmt] at hm
    cases hm

/-- C3: the `safe_slice` bounds are clamped into the array (the start is
never negative, the end never beyond the axis length, and the centre cell
always lies inside), and every value produced by the window slice is an
in-bounds element of the array whose indices lie inside the clamped
window — edge windows are smaller, never wrapped or padded. -/
theorem safe_slice_window_in_bounds (a : List (List Val)) (row col radius : ℤ)
    (hrow0 : 0 ≤ row) (hrowH : row < (a.length : ℤ))
    (hcol0 : 0 ≤ col) (hcolW : col < (width a : ℤ)) (hrad : 0 ≤ radius)
    (hrect : ∀ r ∈ a, r.length = width a) :
    (0 ≤ (safe_slice row (a.length : ℤ) radius).1 ∧
      (safe_slice row (a.length : ℤ) radius).1 ≤ row ∧
      row < (safe_slice row (a.length : ℤ) radius).2 ∧
      (safe_slice row (a.length : ℤ) radius).2 ≤ (a.length : ℤ)) ∧
    (0 ≤ (safe_slice col (width a : ℤ) radius).1 ∧
      (safe_slice col (width a : ℤ) radius).1 ≤ col ∧
      col < (safe_slice col (width a : ℤ) radius).2 ∧
      (safe_slice col (width a : ℤ) radius).2 ≤ (width a : ℤ)) ∧
    (∀ x ∈ (window a row col radius).flatten, ∃ i j : ℕ,
      ((safe_slice row (a.length : ℤ) radius).1).toNat ≤ i ∧
      (i : ℤ) < (safe_slice row (a.length : ℤ) radius).2 ∧
      ((safe_slice col (width a : ℤ) radius).1).toNat ≤ j ∧
      (j : ℤ) < (safe_slice col (width a : ℤ) radius).2 ∧
      i < a.length ∧ j < width a ∧ elemAt a i j = some x) := by
  refine ⟨by simp only [safe_slice]; omega, by simp only [safe_slice]; omega, ?_⟩
  intro x hx
  rw [window] at hx
  obtain ⟨wrow, hwrow, hxw⟩ := List.mem_flatten.mp hx
  obtain ⟨arow, harow, rfl⟩ := List.mem_map.mp hwrow
  obtain ⟨i, hi1, hi2, hia⟩ := mem_sliceList harow
  obtain ⟨j, hj1, hj2, hjx⟩ := mem_sliceList hxw
  have hrowlen : arow.length = width a :=
    hrect arow (List.mem_iff_getElem?.mpr ⟨i, hia⟩)
  have hilen : i < a.length := (List.getElem?_eq_some.mp hia).1
  have hjlen : j < width a := by
    have := (List.getElem?_eq_some.mp hjx).1
    omega
  refine ⟨i, j, hi1, ?_, hj1, ?_, hilen, hjlen, ?_⟩
  · simp only [safe_slice] at hi2 ⊢
    omega
  · simp only [safe_slice] at hj2 ⊢
    omega
  · rw [elemAt, hia]
    exact hjx

/-- Witness for the C3 theorem (bounds part) at a concrete grid. -/
theorem safe_slice_window_in_bounds_witness :
    (0 ≤ (safe_slice 0 ((2 : ℕ) : ℤ) 1).1 ∧
      (safe_slice 0 ((2 : ℕ) : ℤ) 1).1 ≤ 0 ∧
      (0 : ℤ) < (safe_slice 0 ((2 : ℕ) : ℤ) 1).2 ∧
      (safe_slice 0 ((2 : ℕ) : ℤ) 1).2 ≤ ((2 : ℕ) : ℤ)) ∧
    (0 ≤ (safe_slice 1 ((2 : ℕ) : ℤ) 1).1 ∧
      (safe_slice 1 ((2 : ℕ) : ℤ) 1).1 ≤ 1 ∧
      (1 : ℤ) < (safe_slice 1 ((2 : ℕ) : ℤ) 1).2 ∧
      (safe_slice 1 ((2 : ℕ) : ℤ) 1).2 ≤ ((2 : ℕ) : ℤ)) :=
  ⟨(safe_slice_window_in_bounds [[some 1, some 2], [some 3, some 4]] 0 1 1
      (by decide) (by decide) (by decide) (by decide) (by decide) (by decide)).1,
   (safe_slice_window_in_bounds [[some 1, some 2], [some 3, some 4]] 0 1 1
      (by decide) (by decide) (by decide) (by decide) (by decide) (by decide)).2.1⟩

theorem argminFirst_cons {α : Type} [LinearOrder α] (x : α) (rest : List α) :
    argminFirst (x :: rest) =
      match rest[argminFirst rest]? with
      | none => 0
      | some b => if b < x then argminFirst rest + 1 else 0 := rfl

theorem argminFirst_spec {α : Type} [LinearOrder α] (d : α) :
    ∀ l : List α, l ≠ [] →
      argminFirst l < l.length ∧
      (∀ i, i < l.length → l.getD (argminFirst l) d ≤ l.getD i d) ∧
      (∀ i, i < argminFirst l → l.getD (argminFirst l) d < l.getD i d) := by
  intro l
  induction l with
  | nil => intro h; exact absurd rfl h
  | cons x rest ih =>
    intro _
    by_cases hr : rest = []
    · subst hr
      have ha : argminFirst [x] = 0 := rfl
      refine ⟨by rw [ha]; simp, ?_, ?_⟩
      · intro i hi
        have hi0 : i = 0 := by simpa using Nat.lt_one_iff.mp (by simpa using hi)
        rw [ha, hi0]
      · intro i hi
        rw [ha] at hi
        exact absurd hi (Nat.not_lt_zero i)
    · obtain ⟨ihlt, ihmin, ihstrict⟩ := ih hr
      have hsome : rest[argminFirst rest]? = some (rest.getD (argminFirst rest) d) := by
        rw [List.getD_eq_getElem rest d ihlt]
        exact List.getElem?_eq_getElem ihlt
      have hval : argminFirst (x :: rest) =
          if rest.getD (argminFirst rest) d < x then argminFirst rest + 1 else 0 := by
        rw [argminFirst_cons, hsome]
      by_cases hbx : rest.getD (argminFirst rest) d < x
      · rw [hval, if_pos hbx]
        refine ⟨by simp; omega, ?_, ?_⟩
        · intro i hi
          rw [List.getD_cons_succ]
          cases i with
          | zero => exact le_of_lt hbx
          | succ i' =>
            rw [List.getD_cons_succ]
            exact ihmin i' (by simpa using hi)
        · intro i hi
          rw [List.getD_cons_succ]
          cases i with
          | zero => exact hbx
          | succ i' =>
            rw [List.getD_cons_succ]
            exact ihstrict i' (by omega)
      · rw [hval, if_neg hbx]
        have hxb : x ≤ rest.getD (argminFirst rest) d := le_of_not_lt hbx
        refine ⟨by simp, ?_, ?_⟩
        · intro i hi
          rw [List.getD_cons_zero]
          cases i with
          | zero => rw [List.getD_cons_zero]
          | succ i' =>
            rw [List.getD_cons_succ]
            exact le_trans hxb (ihmin i' (by simpa using hi))
        · intro i hi
          exact absurd hi (Nat.not_lt_zero i)

theorem flatten_length_rect {α : Type} (a : List (List α)) (W : ℕ)
    (h : ∀ r ∈ a, r.length = W) : a.flatten.length = a.length * W := by
  induction a with
  | nil => simp
  | cons r rest ih =>
    rw [List.flatten_cons, List.length_append, h r (List.mem_cons_self r rest),
      ih (fun y hy => h y (List.mem_cons_of_mem _ hy)), List.length_cons]
    ring

theorem flatten_getD_rect {α : Type} (a : List (List α)) (W : ℕ) (dflt : α)
    (h : ∀ r ∈ a, r.length = W) :
    ∀ i j, i < a.length → j < W →
      a.flatten.getD (i * W + j) dflt = (a.getD i []).getD j dflt := by
  induction a with
  | nil =>
    intro i j hi _
    simp at hi
  | cons r rest ih =>
    intro i j hi hj
    cases i with
    | zero =>
      rw [List.flatten_cons]
      have hjr : j < r.length := by
        rw [h r (List.mem_cons_self r rest)]
        exact hj
      simp only [Nat.zero_mul, Nat.zero_add]
      rw [List.getD_append _ _ _ _ hjr, List.getD_cons_zero]
    | succ i' =>
      rw [List.flatten_cons]
      have hlen : r.length = W := h r (List.mem_cons_self r rest)
      have hidx : (i' + 1) * W + j = r.length + (i' * W + j) := by
        rw [hlen]
        ring
      rw [hidx, List.getD_append_right _ _ _ _ (Nat.le_add_right _ _),
        Nat.add_sub_cancel_left, List.getD_cons_succ]
      exact ih (fun y hy => h y (List.mem_cons_of_mem _ hy)) i' j (by simpa using hi) hj

theorem zipWith_getD {α β γ : Type} (f : α → β → γ) (d₁ : α) (d₂ : β) (d₃ : γ) :
    ∀ (l₁ : List α) (l₂ : List β) (i : ℕ), i < l₁.length → i < l₂.length →
      (List.zipWith f l₁ l₂).getD i d₃ = f (l₁.getD i d₁) (l₂.getD i d₂) := by
  intro l₁
  induction l₁ with
  | nil =>
    intro l₂ i hi _
    simp at hi
  | cons x rest ih =>
    intro l₂ i hi h₂
    cases l₂ with
    | nil => simp at h₂
    | cons y rest₂ =>
      rw [List.zipWith_cons_cons]
      cases i with
      | zero => rw [List.getD_cons_zero, List.getD_cons_zero, List.getD_cons_zero]
      | succ i' =>
        rw [List.getD_cons_succ, List.getD_cons_succ, List.getD_cons_succ]
        exact ih rest₂ i' (by simpa using hi) (by simpa using h₂)

/-- C2: for a nonempty rectangular geolocation grid, `locate` returns an
in-bounds index `(r, c)` whose haversine distance to the query point is a
global minimum over all grid cells, and every cell strictly earlier in
row-major order has strictly larger distance — the returned cell is the
first minimiser in row-major traversal order (numpy `argmin` on the
flattened array). -/
theorem locate_first_row_major_minimum (lat lon : List (List ℝ)) (qlat qlon : ℝ)
    (H W : ℕ) (hHpos : 0 < H) (hWpos : 0 < W)
    (hlatlen : lat.length = H) (hlonlen : lon.length = H)
    (hlatrect : ∀ r ∈ lat, r.length = W) (hlonrect : ∀ r ∈ lon, r.length = W) :
    (locate lat lon qlat qlon).1 < H ∧
    (locate lat lon qlat qlon).2 < W ∧
    (∀ i j, i < H → j < W →
      dAt lat lon qlat qlon (locate lat lon qlat qlon).1
          (locate lat lon qlat qlon).2 ≤ dAt lat lon qlat qlon i j) ∧
    (∀ i j, i < H → j < W →
      i * W + j <
        (locate lat lon qlat qlon).1 * W + (locate lat lon qlat qlon).2 →
      dAt lat lon qlat qlon (locate lat lon qlat qlon).1
          (locate lat lon qlat qlon).2 < dAt lat lon qlat qlon i j) := by
  set g := distGrid lat lon qlat qlon with hg
  have hglen : g.length = H := by
    rw [hg, distGrid, List.length_zipWith, hlatlen, hlonlen, Nat.min_self]
  have hmemlat : ∀ i, i < H → lat.getD i [] ∈ lat := by
    intro i hi
    rw [List.getD_eq_getElem lat [] (by rw [hlatlen]; exact hi)]
    exact List.getElem_mem _
  have hmemlon : ∀ i, i < H → lon.getD i [] ∈ lon := by
    intro i hi
    rw [List.getD_eq_getElem lon [] (by rw [hlonlen]; exact hi)]
    exact List.getElem_mem _
  have hrow : ∀ i, i < H → g.getD i [] =
      List.zipWith (haversine qlat qlon) (lat.getD i []) (lon.getD i []) := by
    intro i hi
    rw [hg, distGrid]
    exact zipWith_getD _ [] [] [] lat lon i
      (by rw [hlatlen]; exact hi) (by rw [hlonlen]; exact hi)
  have hgrect : ∀ r ∈ g, r.length = W := by
    intro r hrm
    obtain ⟨i, hir⟩ := List.mem_iff_getElem?.mp hrm
    have hi : i < H := by
      rw [← hglen]
      exact (List.getElem?_eq_some.mp hir).1
    have hreq : r = g.getD i [] := by
      rw [List.getD_eq_getElem?_getD, hir]
      rfl
    rw [hreq, hrow i hi, List.length_zipWith,
      hlatrect (lat.getD i []) (hmemlat i hi),
      hlonrect (lon.getD i []) (hmemlon i hi), Nat.min_self]
  have hwg : width g = W := by
    cases hgc : g with
    | nil =>
      rw [hgc] at hglen
      simp at hglen
      omega
    | cons r rest =>
      show r.length = W
      exact hgrect r (by rw [hgc]; exact List.mem_cons_self r rest)
  have hflatlen : g.flatten.length = H * W := by
    rw [flatten_length_rect g W hgrect, hglen]
  have hfne : g.flatten ≠ [] := by
    intro h0
    rw [h0] at hflatlen
    have := Nat.mul_pos hHpos hWpos
    simp at hflatlen
    omega
  obtain ⟨hklt, hmin, hstrict⟩ := argminFirst_spec (0 : ℝ) g.flatten hfne
  set k := argminFirst g.flatten with hkdef
  have hkHW : k < H * W := by
    rw [← hflatlen]
    exact hklt
  have hloc : locate lat lon qlat qlon = (k / W, k % W) := by
    rw [locate, ← hg, hwg]
  have hdiv : k / W < H := by
    refine Nat.div_lt_of_lt_mul ?_
    rw [Nat.mul_comm]
    exact hkHW
  have hmod : k % W < W := Nat.mod_lt k hWpos
  have hsplit : k / W * W + k % W = k := by
    rw [Nat.mul_comm (k / W) W]
    exact Nat.div_add_mod k W
  have hdat : ∀ i j, i < H → j < W →
      g.flatten.getD (i * W + j) 0 = dAt lat lon qlat qlon i j := by
    intro i j hi hj
    rw [flatten_getD_rect g W 0 hgrect i j (by rw [hglen]; exact hi) hj, hrow i hi,
      zipWith_getD (haversine qlat qlon) 0 0 0 (lat.getD i []) (lon.getD i []) j
        (by rw [hlatrect (lat.getD i []) (hmemlat i hi)]; exact hj)
        (by rw [hlonrect (lon.getD i []) (hmemlon i hi)]; exact hj)]
    rfl
  have hidx : ∀ i j, i < H → j < W → i * W + j < H * W := by
    intro i j hi hj
    calc i * W + j < i * W + W := by omega
      _ = (i + 1) * W := by ring
      _ ≤ H * W := Nat.mul_le_mul_right W hi
  have hdk : g.flatten.getD k 0 = dAt lat lon qlat qlon (k / W) (k % W) := by
    have h2 := hdat (k / W) (k % W) hdiv hmod
    rw [hsplit] at h2
    exact h2
  rw [hloc]
  refine ⟨hdiv, hmod, ?_, ?_⟩
  · intro i j hi hj
    have h1 := hmin (i * W + j) (by rw [hflatlen]; exact hidx i j hi hj)
    rw [hdk, hdat i j hi hj] at h1
    exact h1
  · intro i j hi hj hlt
    have hltk : i * W + j < k := by
      rw [← hsplit]
      exact hlt
    have h1 := hstrict (i * W + j) hltk
    rw [hdk, hdat i j hi hj] at h1
    exact h1

/-- Witness for the C2 theorem: a concrete 2×2 grid. -/
theorem locate_first_row_major_minimum_witness :
    (locate [[0, 0], [1, 1]] [[0, 1], [0, 1]] 1 1).1 < 2 ∧
    (locate [[0, 0], [1, 1]] [[0, 1], [0, 1]] 1 1).2 < 2 :=
  ⟨(locate_first_row_major_minimum [[0, 0], [1, 1]] [[0, 1], [0, 1]] 1 1 2 2
      (by decide) (by decide) rfl rfl
      (by simp) (by simp)).1,
   (locate_first_row_major_minimum [[0, 0], [1, 1]] [[0, 1], [0, 1]] 1 1 2 2
      (by decide) (by decide) rfl rfl
      (by simp) (by simp)).2.1⟩

end OMI
